import Mathlib

/-!
Verification of the region-map viewer (`src/app.py`).

The Python program is shallowly embedded below.  Python strings are `String`
(sequences of Unicode code points), Python dicts with string keys/values are
association lists with unique keys (`StrDict`), fallible Python code returns
`Except`, and the I/O performed by the two loaders is modelled by passing the
relevant environment (cache-file contents, a fetch oracle, a JSON-parse
oracle) explicitly and returning the resulting file state.
-/

namespace App

instance {ε α : Type} [DecidableEq ε] [DecidableEq α] : DecidableEq (Except ε α)
  | Except.ok a, Except.ok b =>
    if h : a = b then isTrue (by rw [h])
    else isFalse (by intro hc; cases hc; exact h rfl)
  | Except.ok _, Except.error _ => isFalse (by intro hc; cases hc)
  | Except.error _, Except.ok _ => isFalse (by intro hc; cases hc)
  | Except.error e, Except.error f =>
    if h : e = f then isTrue (by rw [h])
    else isFalse (by intro hc; cases hc; exact h rfl)

@[simp]
theorem except_bind_ok {ε α β : Type} (a : α) (f : α → Except ε β) :
    (Except.ok a : Except ε α) >>= f = f a := rfl

@[simp]
theorem except_bind_error {ε α β : Type} (e : ε) (f : α → Except ε β) :
    (Except.error e : Except ε α) >>= f = Except.error e := rfl

@[simp]
theorem except_mapError_ok {ε ε' α : Type} (f : ε → ε') (a : α) :
    Except.mapError f (Except.ok a : Except ε α) = Except.ok a := rfl

@[simp]
theorem except_mapError_error {ε ε' α : Type} (f : ε → ε') (e : ε) :
    Except.mapError f (Except.error e : Except ε α) = Except.error (f e) := rfl

/-- A Python dict with string keys and string values, modelled as an
association list.  Python dicts have unique keys, so lookup takes the first
binding. -/
abbrev StrDict := List (String × String)

/-- Python `d.get(k)` / `d[k]` lookup (the latter raises `KeyError` on
`none`, handled at each use site). -/
def dictGet? : StrDict → String → Option String
  | [], _ => none
  | (k', v) :: rest, k => if k' = k then some v else dictGet? rest k

/-- Python `d[k] = v`: update the existing binding in place, else append
(Python dicts preserve insertion order). -/
def dictInsert : StrDict → String → String → StrDict
  | [], k, v => [(k, v)]
  | (k', v') :: rest, k, v =>
    if k' = k then (k', v) :: rest else (k', v') :: dictInsert rest k v

/-- Python `k in d`. -/
def containsKey (m : StrDict) (k : String) : Bool :=
  m.any (fun p => p.1 = k)

/-- One GeoJSON feature: its property bag (`none` models a feature dict with
no "properties" entry).  The geometry is opaque to the program and omitted. -/
structure Feature where
  properties : Option StrDict
deriving DecidableEq

/-- A GeoJSON feature collection as the program sees it: a dict that may or
may not have a "features" entry holding a list of features. -/
structure GeoJson where
  features : Option (List Feature)
deriving DecidableEq

/-! ## Name Normalizer (`normalize_name`, src/app.py lines 51-67) -/

/-- The `str.maketrans` substitution table of `normalize_name`: the Turkish
special letters (both cases, including the dotted/dotless I pair) mapped to
plain Latin, every other code point unchanged. -/
def trChar (c : Char) : Char :=
  if c = 'ç' then 'c'
  else if c = 'ğ' then 'g'
  else if c = 'ı' then 'i'
  else if c = 'ö' then 'o'
  else if c = 'ş' then 's'
  else if c = 'ü' then 'u'
  else if c = 'Ç' then 'c'
  else if c = 'Ğ' then 'g'
  else if c = 'İ' then 'i'
  else if c = 'I' then 'i'
  else if c = 'Ö' then 'o'
  else if c = 'Ş' then 's'
  else if c = 'Ü' then 'u'
  else c

/-- Python `str.lower` on one code point, modelled on the alphabet this
program manipulates (ASCII plus the Turkish letters); other code points are
left unchanged.  Python lowercases `'İ'` (U+0130) to the two code points
`"i̇"`, hence the list-valued result. -/
def lowerCharM (c : Char) : List Char :=
  if c = 'İ' then ['i', '\u0307']
  else if c = 'Ç' then ['ç']
  else if c = 'Ğ' then ['ğ']
  else if c = 'Ö' then ['ö']
  else if c = 'Ş' then ['ş']
  else if c = 'Ü' then ['ü']
  else [Char.toLower c]

/-- Python `str.lower` over a whole string. -/
def lowerList : List Char → List Char
  | [] => []
  | c :: rest => lowerCharM c ++ lowerList rest

/-- The whitespace stripped by Python `str.strip()` (restricted to the ASCII
whitespace code points). -/
def pyIsSpace (c : Char) : Bool :=
  c = ' ' || c = '\t' || c = '\n' || c = '\r' || c = '\x0b' || c = '\x0c'

/-- Python `str.strip()`: drop whitespace from both ends. -/
def pyStrip (s : List Char) : List Char :=
  ((s.dropWhile pyIsSpace).reverse.dropWhile pyIsSpace).reverse

/-- Line 67 of src/app.py: `name.translate(replacements).lower().strip()`. -/
def normalize_name (name : String) : String :=
  ⟨pyStrip (lowerList (name.data.map trChar))⟩

example : normalize_name "İstanbul" = "istanbul" := by decide
example : normalize_name "ISTANBUL" = "istanbul" := by decide
example : normalize_name "  Çorum " = "corum" := by decide

/-! ## Feature Key Resolver (`resolve_feature_key`, src/app.py lines 70-75) -/

/-- The fixed priority list of candidate key names scanned by
`resolve_feature_key`. -/
def featureKeyCandidates : List String := ["name", "NAME_1", "NAME", "province"]

/-- The property bag inspected by `resolve_feature_key`:
`geojson.get("features", [{}])[0].get("properties", {})`, defined only when
the indexing does not raise.  The default `[{}]` is a one-element list whose
element is an empty dict, modelled as a feature with no property bag. -/
def sampleProps (geojson : GeoJson) : Option StrDict :=
  match geojson.features.getD [{ properties := none }] with
  | [] => none
  | f :: _ => some (f.properties.getD [])

/-- Lines 70-75 of src/app.py.  `Except.error` models the `IndexError`
raised by `[0]` when the features list is present but empty. -/
def resolve_feature_key (geojson : GeoJson) : Except String String :=
  match sampleProps geojson with
  | none => Except.error "IndexError"
  | some sample_props =>
    match featureKeyCandidates.find? (fun k => containsKey sample_props k) with
    | some key => Except.ok ("properties." ++ key)
    | none => Except.ok "properties.name"

/-! ## Feature Name Indexer (`build_feature_name_map`, src/app.py lines 78-85) -/

/-- Python `key.split(".", 1)[1]`: the remainder of `key` after the first
`'.'`; `none` models the `IndexError` raised when `key` contains no `'.'`. -/
def splitRest (key : String) : Option String :=
  if key.data.contains '.' then
    some ⟨(key.data.dropWhile (fun c => c != '.')).tail⟩
  else none

/-- The body of the `for feature in geojson.get("features", [])` loop of
lines 81-84: read the feature's name property (defaulting to ""), and if it
is non-empty insert `mapping[normalize_name(raw_name)] = raw_name`. -/
def indexStep (prop_key : String) (mapping : StrDict) (feature : Feature) : StrDict :=
  let raw_name := (dictGet? (feature.properties.getD []) prop_key).getD ""
  if raw_name = "" then mapping
  else dictInsert mapping (normalize_name raw_name) raw_name

/-- Lines 78-85 of src/app.py: index every feature whose name property is
non-empty under its normalized name, last writer winning. -/
def build_feature_name_map (geojson : GeoJson) (key : String) :
    Except String StrDict :=
  match splitRest key with
  | none => Except.error "IndexError"
  | some prop_key =>
    Except.ok ((geojson.features.getD []).foldl (indexStep prop_key) [])

/-! ## Dataset Joiner (`build_dataframe`, src/app.py lines 88-101) -/

/-- One row of the joined table (`pd.DataFrame` row order follows the
`records` list the program builds). -/
structure Row where
  name : String
  feature_name : String
  culture : String
deriving DecidableEq

instance : Inhabited Row := ⟨⟨"", "", ""⟩⟩

/-- Lines 88-101 of src/app.py.  Each record dict is accessed with
`item["name"]` and `item["culture"]`; `Except.error` models the `KeyError`
raised when a field is missing (which aborts the whole loop). -/
def build_dataframe (province_data : List StrDict) (feature_map : StrDict) :
    Except String (List Row) :=
  match province_data with
  | [] => Except.ok []
  | item :: rest => do
    let name ← match dictGet? item "name" with
      | some v => Except.ok v
      | none => Except.error "KeyError: name"
    let normalized := normalize_name name
    let feature_name := (dictGet? feature_map normalized).getD name
    let culture ← match dictGet? item "culture" with
      | some v => Except.ok v
      | none => Except.error "KeyError: culture"
    let rows ← build_dataframe rest feature_map
    Except.ok ({ name := name, feature_name := feature_name, culture := culture } :: rows)

/-! ## Selection Surface (`select_province`, src/app.py lines 104-110) -/

/-- One point of the `plotly_events` click payload: a dict whose
`"customdata"` entry (when present) holds the list of custom-data fields
attached to the clicked region. -/
structure ClickPoint where
  customdata : Option (List String)
deriving DecidableEq

/-- Lines 104-110 of src/app.py.  `click_event` is truthy exactly when it is
a non-empty list; `point.get("customdata", [""])[0]` raises `IndexError` on
an empty custom-data list, and `x or province_names[0]` falls back exactly
when `x` is the empty string.  `st.selectbox` is modelled by its return
value, `selectbox_value`: the list widget's current value. -/
def select_province (province_names : List String)
    (click_event : Option (List ClickPoint)) (selectbox_value : String) :
    Except String String :=
  match click_event with
  | some (point :: _) =>
    match point.customdata.getD [""] with
    | [] => Except.error "IndexError"
    | c :: _ =>
      if c = "" then
        match province_names with
        | [] => Except.error "IndexError"
        | n :: _ => Except.ok n
      else Except.ok c
  | _ => Except.ok selectbox_value

/-! ## Region Content Loader (`load_province_data`, src/app.py lines 20-23) -/

/-- Lines 20-23 of src/app.py: open the fixed local resource and
`json.load` it.  `file` is the resource's contents (`none` when the file
does not exist, which raises `FileNotFoundError`); `parseJson` is the
`json.load` oracle for this file, failing on malformed contents. -/
def load_province_data (file : Option String)
    (parseJson : String → Except String (List StrDict)) :
    Except String (List StrDict) :=
  match file with
  | none => Except.error "FileNotFoundError"
  | some content => parseJson content

/-! ## Boundary Loader (`load_geojson`, src/app.py lines 26-48) -/

/-- First entry of `GEOJSON_URLS` (line 15 of src/app.py). -/
def urlMain : String :=
  "https://raw.githubusercontent.com/cihadturhan/geojson/main/tr-81-il.geojson"

/-- Second entry of `GEOJSON_URLS` (line 16 of src/app.py). -/
def urlMaster : String :=
  "https://raw.githubusercontent.com/cihadturhan/geojson/master/tr-81-il.geojson"

/-- The fixed ordered mirror list (lines 14-17 of src/app.py). -/
def GEOJSON_URLS : List String := [urlMain, urlMaster]

/-- Errors `load_geojson` can raise: the
`RuntimeError("GeoJSON download failed") from last_error` of line 46 (the
spec's `BoundaryFetchError`, carrying the last underlying network error as
cause), a `json.JSONDecodeError` from line 48, or `FileNotFoundError` from
line 47. -/
inductive LoadError where
  | boundaryFetch (cause : String)
  | parse (msg : String)
  | fileNotFound
deriving DecidableEq

/-- Outcome of one `load_geojson` call: its result, the contents of the
cache file (`GEOJSON_PATH`) afterwards, and the URLs fetched, in order. -/
structure LoadOutcome where
  result : Except LoadError GeoJson
  cache : Option String
  attempted : List String

/-- The `for url in GEOJSON_URLS` loop of lines 29-40: each iteration
fetches one URL (`requests.get` plus `raise_for_status`, the oracle `fetch`
returning the response text or the `requests.RequestException` message); a
failure records the exception in `last_error` and continues, a success
writes the response text to the cache file, clears `last_error` and breaks.
Returns (URLs attempted, final `last_error`, file contents written). -/
def try_urls (fetch : String → Except String String) :
    List String → Option String → List String × Option String × Option String
  | [], last_error => ([], last_error, none)
  | url :: rest, _ =>
    match fetch url with
    | Except.error exc =>
      let (attempted, final_error, written) := try_urls fetch rest (some exc)
      (url :: attempted, final_error, written)
    | Except.ok text => ([url], none, some text)

/-- Lines 26-48 of src/app.py.  `cache` is the contents of `GEOJSON_PATH`
on entry (`none` when the file does not exist); `parseJson` is the
`json.load` oracle for this file; `fetch` is the network oracle.  When the
cache file exists the URL loop is skipped entirely; otherwise the loop runs
and, if `last_error` survives it, line 46 raises before the file is read. -/
def load_geojson (parseJson : String → Except String GeoJson)
    (fetch : String → Except String String) (cache : Option String) :
    LoadOutcome :=
  match cache with
  | some content =>
    { result := (parseJson content).mapError LoadError.parse
      cache := some content
      attempted := [] }
  | none =>
    match try_urls fetch GEOJSON_URLS none with
    | (attempted, some exc, written) =>
      { result := Except.error (LoadError.boundaryFetch exc)
        cache := written
        attempted := attempted }
    | (attempted, none, some text) =>
      { result := (parseJson text).mapError LoadError.parse
        cache := some text
        attempted := attempted }
    | (attempted, none, none) =>
      { result := Except.error LoadError.fileNotFound
        cache := none
        attempted := attempted }

/-! ## Claim C8: the normalizer on the dotted/dotless I pair -/

/-- C8 (confirmed): `normalize_name` maps the three spellings "İstanbul",
"istanbul" and "ISTANBUL" to the same canonical key, and that key is exactly
"istanbul": the explicit substitution table handles the Turkish
dotted/dotless I pair case-insensitively. -/
theorem C8_normalize_dotted_dotless_I :
    normalize_name "İstanbul" = normalize_name "istanbul" ∧
    normalize_name "istanbul" = normalize_name "ISTANBUL" ∧
    normalize_name "İstanbul" = "istanbul" ∧
    normalize_name "istanbul" = "istanbul" ∧
    normalize_name "ISTANBUL" = "istanbul" := by
  decide

/-! ## Claim C2: click-vs-list selection precedence -/

/-- C2 counterexample: with provinces ["Adana", "Bolu"], a click whose name
payload is the empty string, and the list selector currently on "Bolu", the
claim says the returned selection is the selector's value "Bolu"; the code
returns "Adana" — `... or province_names[0]` falls back to the FIRST
province name, not to the selector's value (the selectbox is not even
rendered on that path). -/
theorem C2_select_province_counterexample :
    select_province ["Adana", "Bolu"] (some [{ customdata := some [""] }]) "Bolu" =
      Except.ok "Adana" ∧
    (Except.ok "Adana" : Except String String) ≠ Except.ok "Bolu" := by
  decide

/-- C2 (corrected): a non-empty click payload wins; an absent click event
(`None` or the empty list) yields the list selector's current value; but a
click with an empty name payload (empty string, or a missing `customdata`
entry) yields the FIRST province name, not the selector's current value. -/
theorem C2_select_province_contract (province_names : List String) (n : String)
    (hn : province_names.head? = some n) (selectbox_value : String) :
    (∀ c cs ps, c ≠ "" →
      select_province province_names (some ({ customdata := some (c :: cs) } :: ps))
        selectbox_value = Except.ok c) ∧
    select_province province_names none selectbox_value = Except.ok selectbox_value ∧
    select_province province_names (some []) selectbox_value = Except.ok selectbox_value ∧
    (∀ cs ps, select_province province_names (some ({ customdata := some ("" :: cs) } :: ps))
      selectbox_value = Except.ok n) ∧
    (∀ ps, select_province province_names (some ({ customdata := none } :: ps))
      selectbox_value = Except.ok n) := by
  obtain ⟨m, rest, rfl⟩ : ∃ m rest, province_names = m :: rest := by
    cases province_names with
    | nil => simp at hn
    | cons a l => exact ⟨a, l, rfl⟩
  have hm : m = n := by simpa using hn
  subst hm
  refine ⟨?_, rfl, rfl, ?_, ?_⟩
  · intro c cs ps hc
    simp [select_province, hc]
  · intro cs ps
    simp [select_province]
  · intro ps
    simp [select_province]

/-- C2 witness: the corrected contract applied at a concrete input — an
empty click payload selects "Adana", the first province, even though the
selector is on "Bolu". -/
theorem C2_select_province_contract_witness :
    (["Adana", "Bolu"].head? = some "Adana") ∧
    select_province ["Adana", "Bolu"] (some [{ customdata := some [""] }]) "Bolu" =
      Except.ok "Adana" :=
  ⟨rfl, (C2_select_province_contract ["Adana", "Bolu"] "Adana" rfl "Bolu").2.2.2.1 [] []⟩

/-! ## Claim C3: the feature key resolver -/

/-- C3 counterexample: on a collection whose features list is present but
empty, `resolve_feature_key` does fail — `geojson.get("features", [{}])[0]`
raises `IndexError` (the `[{}]` default only guards the case where the
"features" key is absent), so it neither scans the candidate keys nor
returns the default key. -/
theorem C3_resolve_feature_key_counterexample :
    resolve_feature_key { features := some [] } = Except.error "IndexError" ∧
    resolve_feature_key { features := some [] } ≠ Except.ok "properties.name" := by
  decide

/-- C3 (corrected): whenever the features list is NOT present-and-empty, the
resolver never fails: it inspects only the first feature's property bag
(an absent features key or an absent property bag is treated as an empty
bag), returns `properties.` ++ the first present key among `name`, `NAME_1`,
`NAME`, `province`, and returns the default `properties.name` when none is
present.  On a present-but-empty features list it raises `IndexError`
instead. -/
theorem C3_resolve_feature_key_amended (g : GeoJson) (h : g.features ≠ some []) :
    ∃ props, sampleProps g = some props ∧
      ((∀ k ∈ featureKeyCandidates, containsKey props k = false) →
        resolve_feature_key g = Except.ok "properties.name") ∧
      (∀ k, featureKeyCandidates.find? (fun k' => containsKey props k') = some k →
        resolve_feature_key g = Except.ok ("properties." ++ k)) := by
  obtain ⟨props, hp⟩ : ∃ props, sampleProps g = some props := by
    cases hf : g.features with
    | none => exact ⟨[], by simp [sampleProps, hf]⟩
    | some feats =>
      cases feats with
      | nil => exact absurd hf h
      | cons f rest => exact ⟨f.properties.getD [], by simp [sampleProps, hf]⟩
  refine ⟨props, hp, ?_, ?_⟩
  · intro hnone
    have hfind : featureKeyCandidates.find? (fun k' => containsKey props k') = none :=
      List.find?_eq_none.mpr (fun k hk => by simp [hnone k hk])
    simp [resolve_feature_key, hp, hfind]
  · intro k hk
    simp [resolve_feature_key, hp, hk]

/-- C3 witness: the amended theorem applied to a concrete collection whose
first feature carries only a `NAME_1` property: the resolver succeeds with
`properties.NAME_1`. -/
theorem C3_resolve_feature_key_amended_witness :
    ({ features := some [{ properties := some [("NAME_1", "Adana")] }] } : GeoJson).features ≠
      some [] ∧
    resolve_feature_key { features := some [{ properties := some [("NAME_1", "Adana")] }] } =
      Except.ok ("properties." ++ "NAME_1") := by
  refine ⟨by decide, ?_⟩
  obtain ⟨props, hp, _, hfind⟩ :=
    C3_resolve_feature_key_amended
      { features := some [{ properties := some [("NAME_1", "Adana")] }] } (by decide)
  have h2 : sampleProps { features := some [{ properties := some [("NAME_1", "Adana")] }] } =
      some [("NAME_1", "Adana")] := rfl
  rw [h2] at hp
  have hprops : props = [("NAME_1", "Adana")] := by
    injection hp with h3
    exact h3.symm
  subst hprops
  exact hfind "NAME_1" (by decide)

/-! ## Concrete fixtures for witnesses and counterexamples -/

/-- A one-feature collection, named like the spec's end-to-end example. -/
def gAdana : GeoJson := { features := some [{ properties := some [("name", "ADANA")] }] }

/-- A concrete `json.load` oracle for the boundary file: the body "good"
parses to `gAdana`, anything else is malformed. -/
def parseFix : String → Except String GeoJson :=
  fun s => if s = "good" then Except.ok gAdana else Except.error "Expecting value"

/-- A network oracle with every mirror reachable. -/
def fetchOk : String → Except String String := fun _ => Except.ok "good"

/-- A network oracle with every mirror unreachable. -/
def fetchFail : String → Except String String := fun _ => Except.error "ConnectionError"

/-- A network oracle where only the second mirror responds. -/
def fetchSecond : String → Except String String :=
  fun u => if u = urlMaster then Except.ok "good" else Except.error "ConnectionError"

/-- A concrete `json.load` oracle for the province file: the body "nameless"
parses to a single record that lacks the "name" field, anything else is
malformed. -/
def provParseFix : String → Except String (List StrDict) :=
  fun s => if s = "nameless" then Except.ok [[("culture", "X")]]
    else Except.error "Expecting value"

/-! ## Claim C4: unparseable boundary cache file -/

/-- C4 counterexample: with the cache file present but unparseable (body
"bad") and the network fully reachable, the loader attempts NO URL and fails
with the parse error — it does not fall through to the network fetch path,
which (third conjunct) would have succeeded. -/
theorem C4_load_geojson_counterexample :
    (load_geojson parseFix fetchOk (some "bad")).attempted = [] ∧
    (load_geojson parseFix fetchOk (some "bad")).result =
      Except.error (LoadError.parse "Expecting value") ∧
    (load_geojson parseFix fetchOk none).result = Except.ok gAdana := by
  refine ⟨rfl, ?_, ?_⟩ <;> decide

/-- C4 (corrected): when the cache file exists, `load_geojson` parses it
directly — `GEOJSON_PATH.exists()` is the only cache check — so an
unparseable cache file surfaces the `json.load` error and no network fetch
is attempted, instead of being treated as a cache miss. -/
theorem C4_load_geojson_cached_parse_error
    (parseJson : String → Except String GeoJson)
    (fetch : String → Except String String) (content e : String)
    (he : parseJson content = Except.error e) :
    (load_geojson parseJson fetch (some content)).attempted = [] ∧
    (load_geojson parseJson fetch (some content)).result =
      Except.error (LoadError.parse e) := by
  refine ⟨rfl, ?_⟩
  simp [load_geojson, he]

/-- C4 witness: the corrected theorem at the concrete unparseable cache
body. -/
theorem C4_load_geojson_cached_parse_error_witness :
    (parseFix "bad" = Except.error "Expecting value") ∧
    (load_geojson parseFix fetchOk (some "bad")).attempted = [] ∧
    (load_geojson parseFix fetchOk (some "bad")).result =
      Except.error (LoadError.parse "Expecting value") :=
  ⟨rfl, C4_load_geojson_cached_parse_error parseFix fetchOk "bad" "Expecting value" rfl⟩

/-! ## Claim C5: region content loader on missing or malformed input -/

/-- C5 counterexample: a record lacking the "name" field passes
`load_province_data` untouched — the loader is a bare `json.load` with no
per-record validation, so it returns successfully instead of failing. -/
theorem C5_load_province_data_counterexample :
    dictGet? [("culture", "X")] "name" = none ∧
    load_province_data (some "nameless") provParseFix =
      Except.ok [[("culture", "X")]] := by
  decide

/-- Helper for C5: if any record lacks "name" or "culture", the joiner's
`item["name"]` / `item["culture"]` accesses make `build_dataframe` fail. -/
theorem build_dataframe_error_of_missing_field (pd : List StrDict) (fm : StrDict)
    (hbad : ∃ r ∈ pd, dictGet? r "name" = none ∨ dictGet? r "culture" = none) :
    ∃ msg, build_dataframe pd fm = Except.error msg := by
  induction pd with
  | nil => simp at hbad
  | cons item rest ih =>
    obtain ⟨r, hr, hmiss⟩ := hbad
    rw [List.mem_cons] at hr
    rcases hr with heq | hmem
    · subst heq
      rcases hmiss with hname | hcult
      · exact ⟨"KeyError: name", by simp [build_dataframe, hname]⟩
      · cases hname2 : dictGet? r "name" with
        | none => exact ⟨"KeyError: name", by simp [build_dataframe, hname2]⟩
        | some nm =>
          exact ⟨"KeyError: culture", by simp [build_dataframe, hname2, hcult]⟩
    · obtain ⟨msg, hmsg⟩ := ih ⟨r, hmem, hmiss⟩
      cases hn : dictGet? item "name" with
      | none => exact ⟨"KeyError: name", by simp [build_dataframe, hn]⟩
      | some nm =>
        cases hc : dictGet? item "culture" with
        | none => exact ⟨"KeyError: culture", by simp [build_dataframe, hn, hc]⟩
        | some cu => exact ⟨msg, by simp [build_dataframe, hn, hc, hmsg]⟩

/-- C5 (corrected): the loader itself fails only when the resource is
missing (`FileNotFoundError`) or not valid JSON (the `json.load` error); a
record lacking "name" or "culture" passes the loader successfully, and it is
`build_dataframe` that then fails with a `KeyError` — so malformed records
are never silently dropped, but the per-record failure happens in the
joiner, not in the loader. -/
theorem C5_load_province_data_amended
    (parseJson : String → Except String (List StrDict)) (content e : String)
    (he : parseJson content = Except.error e)
    (pd : List StrDict) (feature_map : StrDict)
    (hbad : ∃ r ∈ pd, dictGet? r "name" = none ∨ dictGet? r "culture" = none) :
    load_province_data none parseJson = Except.error "FileNotFoundError" ∧
    load_province_data (some content) parseJson = Except.error e ∧
    ∃ msg, build_dataframe pd feature_map = Except.error msg := by
  refine ⟨rfl, ?_, build_dataframe_error_of_missing_field pd feature_map hbad⟩
  simp [load_province_data, he]

/-- C5 witness: the corrected theorem at concrete inputs — a missing file, a
malformed file body, and a one-record list whose record lacks "name". -/
theorem C5_load_province_data_amended_witness :
    (provParseFix "garbage" = Except.error "Expecting value") ∧
    (∃ r ∈ [[("culture", "X")]], dictGet? r "name" = none ∨ dictGet? r "culture" = none) ∧
    (load_province_data none provParseFix = Except.error "FileNotFoundError" ∧
     load_province_data (some "garbage") provParseFix = Except.error "Expecting value" ∧
     ∃ msg, build_dataframe [[("culture", "X")]] [] = Except.error msg) :=
  ⟨rfl, by decide,
    C5_load_province_data_amended provParseFix "garbage" "Expecting value" rfl
      [[("culture", "X")]] [] (by decide)⟩

/-! ## Claim C6: both mirrors unreachable, no cache -/

/-- C6 (confirmed): with no cache file and both mirror fetches failing,
`load_geojson` fails with the boundary-fetch error carrying the LAST
underlying network error as cause, attempts exactly the fixed ordered URL
list and nothing beyond it, and writes no cache file. -/
theorem C6_load_geojson_all_mirrors_fail
    (parseJson : String → Except String GeoJson)
    (fetch : String → Except String String) (e1 e2 : String)
    (h1 : fetch urlMain = Except.error e1) (h2 : fetch urlMaster = Except.error e2) :
    (load_geojson parseJson fetch none).result =
      Except.error (LoadError.boundaryFetch e2) ∧
    (load_geojson parseJson fetch none).cache = none ∧
    (load_geojson parseJson fetch none).attempted = GEOJSON_URLS := by
  have ht : try_urls fetch [urlMain, urlMaster] none = ([urlMain, urlMaster], some e2, none) := by
    simp [try_urls, h1, h2]
  refine ⟨?_, ?_, ?_⟩ <;> simp [load_geojson, GEOJSON_URLS, ht]

/-- C6 witness: the theorem applied to the all-mirrors-unreachable oracle. -/
theorem C6_load_geojson_all_mirrors_fail_witness :
    (fetchFail urlMain = Except.error "ConnectionError") ∧
    (fetchFail urlMaster = Except.error "ConnectionError") ∧
    ((load_geojson parseFix fetchFail none).result =
      Except.error (LoadError.boundaryFetch "ConnectionError") ∧
     (load_geojson parseFix fetchFail none).cache = none ∧
     (load_geojson parseFix fetchFail none).attempted = GEOJSON_URLS) :=
  ⟨rfl, rfl,
    C6_load_geojson_all_mirrors_fail parseFix fetchFail "ConnectionError" "ConnectionError"
      rfl rfl⟩

/-! ## Claim C7: second mirror succeeds and is cached -/

/-- C7 (confirmed): with no cache file, the first mirror unreachable and the
second responding with `text` (which parses to `g`), `load_geojson` returns
`g`, persists `text` to the cache file, and attempted exactly both URLs in
order; a subsequent load that starts from that cache file returns `g` again
with NO network request, whatever the network oracle then is. -/
theorem C7_load_geojson_second_mirror
    (parseJson : String → Except String GeoJson)
    (fetch : String → Except String String) (e1 text : String) (g : GeoJson)
    (h1 : fetch urlMain = Except.error e1) (h2 : fetch urlMaster = Except.ok text)
    (hp : parseJson text = Except.ok g)
    (fetch2 : String → Except String String) :
    (load_geojson parseJson fetch none).result = Except.ok g ∧
    (load_geojson parseJson fetch none).cache = some text ∧
    (load_geojson parseJson fetch none).attempted = [urlMain, urlMaster] ∧
    (load_geojson parseJson fetch2 (some text)).result = Except.ok g ∧
    (load_geojson parseJson fetch2 (some text)).cache = some text ∧
    (load_geojson parseJson fetch2 (some text)).attempted = [] := by
  have ht : try_urls fetch [urlMain, urlMaster] none = ([urlMain, urlMaster], none, some text) := by
    simp [try_urls, h1, h2]
  refine ⟨?_, ?_, ?_, ?_, ?_, ?_⟩ <;> simp [load_geojson, GEOJSON_URLS, ht, hp]

/-- C7 witness: the theorem applied to the only-second-mirror-reachable
oracle, with the offline oracle `fetchFail` for the subsequent load. -/
theorem C7_load_geojson_second_mirror_witness :
    (fetchSecond urlMain = Except.error "ConnectionError") ∧
    (fetchSecond urlMaster = Except.ok "good") ∧
    (parseFix "good" = Except.ok gAdana) ∧
    ((load_geojson parseFix fetchSecond none).result = Except.ok gAdana ∧
     (load_geojson parseFix fetchSecond none).cache = some "good" ∧
     (load_geojson parseFix fetchSecond none).attempted = [urlMain, urlMaster] ∧
     (load_geojson parseFix fetchFail (some "good")).result = Except.ok gAdana ∧
     (load_geojson parseFix fetchFail (some "good")).cache = some "good" ∧
     (load_geojson parseFix fetchFail (some "good")).attempted = []) :=
  ⟨by decide, by decide, rfl,
    C7_load_geojson_second_mirror parseFix fetchSecond "ConnectionError" "good" gAdana
      (by decide) (by decide) rfl fetchFail⟩

/-! ## Claim C1: the joiner -/

/-- C1 (confirmed): for records that all carry "name" and "culture" fields,
`build_dataframe` succeeds with exactly one output row per input record, in
input order; row i copies record i's name and culture, and its
`feature_name` is the indexed original when `normalize_name` of the record's
name is a key of the index, and the record's own name verbatim otherwise. -/
theorem C1_build_dataframe_join (province_data : List StrDict) (feature_map : StrDict)
    (h : ∀ r ∈ province_data, (dictGet? r "name").isSome ∧ (dictGet? r "culture").isSome) :
    ∃ rows : List Row,
      build_dataframe province_data feature_map = Except.ok rows ∧
      rows.length = province_data.length ∧
      ∀ i, i < province_data.length →
        ∀ nm cu, dictGet? province_data[i]! "name" = some nm →
          dictGet? province_data[i]! "culture" = some cu →
          rows[i]!.name = nm ∧
          rows[i]!.culture = cu ∧
          (∀ v, dictGet? feature_map (normalize_name nm) = some v →
            rows[i]!.feature_name = v) ∧
          (dictGet? feature_map (normalize_name nm) = none →
            rows[i]!.feature_name = nm) := by
  induction province_data with
  | nil =>
    refine ⟨[], rfl, rfl, ?_⟩
    intro i hi
    simp at hi
  | cons item rest ih =>
    obtain ⟨nm0, hnm0⟩ := Option.isSome_iff_exists.mp (h item (by simp)).1
    obtain ⟨cu0, hcu0⟩ := Option.isSome_iff_exists.mp (h item (by simp)).2
    obtain ⟨rows, hok, hlen, hidx⟩ := ih (fun r hr => h r (by simp [hr]))
    refine ⟨{ name := nm0
              feature_name := (dictGet? feature_map (normalize_name nm0)).getD nm0
              culture := cu0 } :: rows, ?_, ?_, ?_⟩
    · simp [build_dataframe, hnm0, hcu0, hok]
    · simp [hlen]
    · intro i hi nm cu hnm hcu
      cases i with
      | zero =>
        simp only [List.getElem!_cons_zero] at hnm hcu ⊢
        rw [hnm0] at hnm
        rw [hcu0] at hcu
        injection hnm with hnm
        injection hcu with hcu
        subst hnm
        subst hcu
        refine ⟨rfl, rfl, ?_, ?_⟩
        · intro v hv
          simp [hv]
        · intro hv
          simp [hv]
      | succ j =>
        have hj : j < rest.length := by
          simp at hi
          omega
        simp only [List.getElem!_cons_succ] at hnm hcu ⊢
        exact hidx j hj nm cu hnm hcu

/-- C1 witness: the theorem at the spec's end-to-end example — the record
"Adana" matches the indexed feature "ADANA", a second record "Bolu" has no
match and falls back to its own name. -/
theorem C1_build_dataframe_join_witness :
    (∀ r ∈ [[("name", "Adana"), ("culture", "X")], [("name", "Bolu"), ("culture", "Y")]],
      (dictGet? r "name").isSome ∧ (dictGet? r "culture").isSome) ∧
    (∃ rows : List Row,
      build_dataframe [[("name", "Adana"), ("culture", "X")], [("name", "Bolu"), ("culture", "Y")]]
        [("adana", "ADANA")] = Except.ok rows ∧
      rows.length = [[("name", "Adana"), ("culture", "X")], [("name", "Bolu"), ("culture", "Y")]].length ∧
      ∀ i, i < [[("name", "Adana"), ("culture", "X")], [("name", "Bolu"), ("culture", "Y")]].length →
        ∀ nm cu,
          dictGet? [[("name", "Adana"), ("culture", "X")], [("name", "Bolu"), ("culture", "Y")]][i]! "name" = some nm →
          dictGet? [[("name", "Adana"), ("culture", "X")], [("name", "Bolu"), ("culture", "Y")]][i]! "culture" = some cu →
          rows[i]!.name = nm ∧
          rows[i]!.culture = cu ∧
          (∀ v, dictGet? [("adana", "ADANA")] (normalize_name nm) = some v →
            rows[i]!.feature_name = v) ∧
          (dictGet? [("adana", "ADANA")] (normalize_name nm) = none →
            rows[i]!.feature_name = nm)) :=
  ⟨by decide,
    C1_build_dataframe_join
      [[("name", "Adana"), ("culture", "X")], [("name", "Bolu"), ("culture", "Y")]]
      [("adana", "ADANA")] (by decide)⟩

/-! ## Claim C10: the name-index invariant -/

/-- Membership in a Python-style dict update: a binding of `dictInsert m k v`
is the new binding or one of the old ones. -/
theorem mem_dictInsert {m : StrDict} {k v : String} {kv : String × String}
    (h : kv ∈ dictInsert m k v) : kv = (k, v) ∨ kv ∈ m := by
  induction m with
  | nil =>
    simp [dictInsert] at h
    exact Or.inl h
  | cons p rest ih =>
    obtain ⟨k', v'⟩ := p
    rw [dictInsert] at h
    by_cases hk : k' = k
    · rw [if_pos hk] at h
      subst hk
      rcases List.mem_cons.mp h with heq | hmem
      · exact Or.inl heq
      · exact Or.inr (List.mem_cons_of_mem _ hmem)
    · rw [if_neg hk] at h
      rcases List.mem_cons.mp h with heq | hmem
      · exact Or.inr (heq ▸ List.mem_cons_self _ _)
      · rcases ih hmem with heq | hmem'
        · exact Or.inl heq
        · exact Or.inr (List.mem_cons_of_mem _ hmem')

/-- One pass of the indexing loop preserves the index invariant. -/
theorem indexStep_inv {prop_key : String} {m : StrDict} {f : Feature}
    (h0 : ∀ kv ∈ m, kv.1 = normalize_name kv.2 ∧ kv.2 ≠ "")
    {kv : String × String} (h : kv ∈ indexStep prop_key m f) :
    kv.1 = normalize_name kv.2 ∧ kv.2 ≠ "" := by
  unfold indexStep at h
  by_cases hr : (dictGet? (f.properties.getD []) prop_key).getD "" = ""
  · rw [if_pos hr] at h
    exact h0 kv h
  · rw [if_neg hr] at h
    rcases mem_dictInsert h with heq | hmem
    · subst heq
      exact ⟨rfl, hr⟩
    · exact h0 kv hmem

/-- The indexing loop preserves the index invariant from any start state. -/
theorem foldl_indexStep_inv (prop_key : String) (feats : List Feature) (m0 : StrDict)
    (h0 : ∀ kv ∈ m0, kv.1 = normalize_name kv.2 ∧ kv.2 ≠ "") :
    ∀ kv ∈ feats.foldl (indexStep prop_key) m0,
      kv.1 = normalize_name kv.2 ∧ kv.2 ≠ "" := by
  induction feats generalizing m0 with
  | nil => simpa using h0
  | cons f rest ih =>
    intro kv hkv
    rw [List.foldl_cons] at hkv
    exact ih (indexStep prop_key m0 f) (fun kv' hkv' => indexStep_inv h0 hkv') kv hkv

/-- C10 (confirmed): every entry (k, v) of a successfully built name index
satisfies k = `normalize_name` v and v non-empty — each key is exactly the
normalization of the original feature name stored under it, and no entry
comes from an empty or missing name property. -/
theorem C10_build_feature_name_map_invariant (geojson : GeoJson) (key : String)
    (m : StrDict) (h : build_feature_name_map geojson key = Except.ok m) :
    ∀ kv ∈ m, kv.1 = normalize_name kv.2 ∧ kv.2 ≠ "" := by
  unfold build_feature_name_map at h
  cases hs : splitRest key with
  | none =>
    rw [hs] at h
    exact Except.noConfusion h
  | some prop_key =>
    rw [hs] at h
    injection h with hm
    subst hm
    exact foldl_indexStep_inv prop_key _ [] (by simp)

/-- C10 witness: the invariant read off a concretely built index. -/
theorem C10_build_feature_name_map_invariant_witness :
    (build_feature_name_map gAdana "properties.name" = Except.ok [("adana", "ADANA")]) ∧
    ∀ kv ∈ [("adana", "ADANA")], kv.1 = normalize_name kv.2 ∧ kv.2 ≠ "" :=
  ⟨by decide,
    C10_build_feature_name_map_invariant gAdana "properties.name" [("adana", "ADANA")]
      (by decide)⟩

/-! ## Claim C9: idempotence of the normalizer

The proof works pointwise: every code point produced by
`lowerCharM (trChar c)` is a fixed point of both the substitution table and
the lowercasing step, so a second pass changes nothing. -/

/-- Packing a valid code point and unpacking it is the identity. -/
theorem toNat_ofNat_valid {n : Nat} (h : Nat.isValidChar n) :
    (Char.ofNat n).toNat = n := by
  rw [Char.ofNat, dif_pos h]
  rfl

/-- On a non-ASCII-uppercase code point, `Char.toLower` is the identity. -/
theorem toLower_eq_of_not_upper {c : Char} (h : ¬(65 ≤ c.toNat ∧ c.toNat ≤ 90)) :
    Char.toLower c = c := by
  simp only [Char.toLower]
  rw [if_neg h]

/-- On an ASCII-uppercase code point, `Char.toLower` adds 32. -/
theorem toLower_toNat_of_upper {c : Char} (h1 : 65 ≤ c.toNat) (h2 : c.toNat ≤ 90) :
    (Char.toLower c).toNat = c.toNat + 32 := by
  have hv : Nat.isValidChar (c.toNat + 32) := Or.inl (by omega)
  simp only [Char.toLower]
  rw [if_pos ⟨h1, h2⟩]
  exact toNat_ofNat_valid hv

/-- A code point is `normal` when both normalization passes fix it. -/
abbrev normalChar (d : Char) : Prop := trChar d = d ∧ lowerCharM d = [d]

/-- Every ASCII-lowercase code point is normal: it is not a key of the
substitution table and not lowercasable further. -/
theorem normalChar_of_ascii_lower {d : Char} (h1 : 97 ≤ d.toNat) (h2 : d.toNat ≤ 122) :
    normalChar d := by
  have hne : ∀ x : Char, x.toNat < 97 ∨ 122 < x.toNat → d ≠ x := by
    intro x hx he
    rw [he] at h1 h2
    rcases hx with hx | hx <;> omega
  constructor
  · unfold trChar
    rw [if_neg (hne 'ç' (by decide)), if_neg (hne 'ğ' (by decide)),
        if_neg (hne 'ı' (by decide)), if_neg (hne 'ö' (by decide)),
        if_neg (hne 'ş' (by decide)), if_neg (hne 'ü' (by decide)),
        if_neg (hne 'Ç' (by decide)), if_neg (hne 'Ğ' (by decide)),
        if_neg (hne 'İ' (by decide)), if_neg (hne 'I' (by decide)),
        if_neg (hne 'Ö' (by decide)), if_neg (hne 'Ş' (by decide)),
        if_neg (hne 'Ü' (by decide))]
  · unfold lowerCharM
    rw [if_neg (hne 'İ' (by decide)), if_neg (hne 'Ç' (by decide)),
        if_neg (hne 'Ğ' (by decide)), if_neg (hne 'Ö' (by decide)),
        if_neg (hne 'Ş' (by decide)), if_neg (hne 'Ü' (by decide)),
        toLower_eq_of_not_upper (by omega)]

/-- The key pointwise fact: everything `lowerCharM (trChar c)` emits is
normal. -/
theorem normalChar_mem_lowerCharM_trChar (c : Char) :
    ∀ d ∈ lowerCharM (trChar c), normalChar d := by
  by_cases h1 : c = 'ç'
  · subst h1; decide
  by_cases h2 : c = 'ğ'
  · subst h2; decide
  by_cases h3 : c = 'ı'
  · subst h3; decide
  by_cases h4 : c = 'ö'
  · subst h4; decide
  by_cases h5 : c = 'ş'
  · subst h5; decide
  by_cases h6 : c = 'ü'
  · subst h6; decide
  by_cases h7 : c = 'Ç'
  · subst h7; decide
  by_cases h8 : c = 'Ğ'
  · subst h8; decide
  by_cases h9 : c = 'İ'
  · subst h9; decide
  by_cases h10 : c = 'I'
  · subst h10; decide
  by_cases h11 : c = 'Ö'
  · subst h11; decide
  by_cases h12 : c = 'Ş'
  · subst h12; decide
  by_cases h13 : c = 'Ü'
  · subst h13; decide
  have htr : trChar c = c := by
    unfold trChar
    rw [if_neg h1, if_neg h2, if_neg h3, if_neg h4, if_neg h5, if_neg h6, if_neg h7,
        if_neg h8, if_neg h9, if_neg h10, if_neg h11, if_neg h12, if_neg h13]
  rw [htr]
  intro d hd
  unfold lowerCharM at hd
  rw [if_neg h9, if_neg h7, if_neg h8, if_neg h11, if_neg h12, if_neg h13] at hd
  rw [List.mem_singleton] at hd
  subst hd
  by_cases hA : 65 ≤ c.toNat ∧ c.toNat ≤ 90
  · refine normalChar_of_ascii_lower ?_ ?_ <;>
      rw [toLower_toNat_of_upper hA.1 hA.2] <;> omega
  · rw [toLower_eq_of_not_upper hA]
    constructor
    · unfold trChar
      rw [if_neg h1, if_neg h2, if_neg h3, if_neg h4, if_neg h5, if_neg h6, if_neg h7,
          if_neg h8, if_neg h9, if_neg h10, if_neg h11, if_neg h12, if_neg h13]
    · unfold lowerCharM
      rw [if_neg h9, if_neg h7, if_neg h8, if_neg h11, if_neg h12, if_neg h13,
          toLower_eq_of_not_upper hA]

theorem lowerList_cons (c : Char) (l : List Char) :
    lowerList (c :: l) = lowerCharM c ++ lowerList l := rfl

/-- The substitution pass fixes a string of normal code points. -/
theorem map_trChar_eq_self {l : List Char} (h : ∀ d ∈ l, normalChar d) :
    l.map trChar = l := by
  induction l with
  | nil => rfl
  | cons c rest ih =>
    rw [List.map_cons, (h c (by simp)).1, ih (fun d hd => h d (by simp [hd]))]

/-- The lowercasing pass fixes a string of normal code points. -/
theorem lowerList_eq_self {l : List Char} (h : ∀ d ∈ l, normalChar d) :
    lowerList l = l := by
  induction l with
  | nil => rfl
  | cons c rest ih =>
    rw [lowerList_cons, (h c (by simp)).2, ih (fun d hd => h d (by simp [hd]))]
    rfl

/-- Everything the first two normalization passes produce is normal. -/
theorem normalChar_mem_normalizeCore (s : List Char) :
    ∀ d ∈ lowerList (s.map trChar), normalChar d := by
  induction s with
  | nil =>
    intro d hd
    simp [lowerList] at hd
  | cons c rest ih =>
    intro d hd
    rw [List.map_cons, lowerList_cons, List.mem_append] at hd
    rcases hd with hd | hd
    · exact normalChar_mem_lowerCharM_trChar c d hd
    · exact ih d hd

theorem mem_of_mem_dropWhile {α : Type} {p : α → Bool} {l : List α} {d : α}
    (h : d ∈ l.dropWhile p) : d ∈ l := by
  induction l with
  | nil => simp [List.dropWhile] at h
  | cons c rest ih =>
    by_cases hp : p c
    · rw [List.dropWhile_cons_of_pos hp] at h
      exact List.mem_cons_of_mem _ (ih h)
    · rw [List.dropWhile_cons_of_neg hp] at h
      exact h

/-- Stripping only removes code points. -/
theorem mem_of_mem_pyStrip {l : List Char} {d : Char} (h : d ∈ pyStrip l) : d ∈ l := by
  unfold pyStrip at h
  rw [List.mem_reverse] at h
  have h2 := mem_of_mem_dropWhile h
  rw [List.mem_reverse] at h2
  exact mem_of_mem_dropWhile h2

/-- The head surviving a `dropWhile` fails the predicate. -/
theorem head_dropWhile_false {α : Type} (p : α → Bool) (l : List α) {d : α}
    (h : (l.dropWhile p).head? = some d) : p d = false := by
  induction l with
  | nil => simp [List.dropWhile] at h
  | cons c rest ih =>
    by_cases hp : p c
    · rw [List.dropWhile_cons_of_pos hp] at h
      exact ih h
    · rw [List.dropWhile_cons_of_neg hp] at h
      injection h with h
      subst h
      simpa using hp

theorem dropWhile_eq_self_of_head {α : Type} {p : α → Bool} {l : List α} {d : α}
    (h : l.head? = some d) (hd : p d = false) : l.dropWhile p = l := by
  cases l with
  | nil => rfl
  | cons c rest =>
    injection h with h
    subst h
    rw [List.dropWhile_cons_of_neg (by simp [hd])]

theorem dropWhile_dropWhile {α : Type} (p : α → Bool) (l : List α) :
    (l.dropWhile p).dropWhile p = l.dropWhile p := by
  cases hl : l.dropWhile p with
  | nil => rfl
  | cons d t =>
    have hd : p d = false := head_dropWhile_false p l (by rw [hl]; rfl)
    rw [List.dropWhile_cons_of_neg (by simp [hd])]

theorem head?_append_left {α : Type} {l₁ : List α} (l₂ : List α) (h : l₁ ≠ []) :
    (l₁ ++ l₂).head? = l₁.head? := by
  cases l₁ with
  | nil => exact absurd rfl h
  | cons c rest => rfl

/-- A stripped string has no leading whitespace left. -/
theorem pyStrip_left_stripped (l : List Char) :
    (pyStrip l).dropWhile pyIsSpace = pyStrip l := by
  unfold pyStrip
  cases hb : (l.dropWhile pyIsSpace).reverse.dropWhile pyIsSpace with
  | nil => simp
  | cons x t =>
    cases ha : l.dropWhile pyIsSpace with
    | nil =>
      rw [ha] at hb
      exact absurd hb (by simp)
    | cons d t' =>
      have hd : pyIsSpace d = false :=
        head_dropWhile_false pyIsSpace l (by rw [ha]; rfl)
      have hdecomp : l.dropWhile pyIsSpace =
          (x :: t).reverse ++ ((l.dropWhile pyIsSpace).reverse.takeWhile pyIsSpace).reverse := by
        have h1 : (l.dropWhile pyIsSpace).reverse.takeWhile pyIsSpace ++
            (l.dropWhile pyIsSpace).reverse.dropWhile pyIsSpace =
            (l.dropWhile pyIsSpace).reverse := List.takeWhile_append_dropWhile pyIsSpace _
        rw [hb] at h1
        have h2 := congrArg List.reverse h1
        rw [List.reverse_append, List.reverse_reverse] at h2
        exact h2.symm
      have hhead : ((x :: t).reverse).head? = some d := by
        have h3 : (l.dropWhile pyIsSpace).head? = some d := by rw [ha]; rfl
        rw [hdecomp, head?_append_left _ (by simp)] at h3
        exact h3
      exact dropWhile_eq_self_of_head hhead hd

/-- A stripped string has no trailing whitespace left. -/
theorem pyStrip_right_stripped (l : List Char) :
    (pyStrip l).reverse.dropWhile pyIsSpace = (pyStrip l).reverse := by
  unfold pyStrip
  rw [List.reverse_reverse]
  exact dropWhile_dropWhile pyIsSpace _

theorem pyStrip_idem (l : List Char) : pyStrip (pyStrip l) = pyStrip l := by
  rw [show pyStrip (pyStrip l) =
      (((pyStrip l).dropWhile pyIsSpace).reverse.dropWhile pyIsSpace).reverse from rfl]
  rw [pyStrip_left_stripped, pyStrip_right_stripped, List.reverse_reverse]

/-- C9 (confirmed): `normalize_name` is idempotent on every string.  The
function is pure, total and deterministic by construction in this model —
each of its three passes (substitution table, lowercasing, strip) is a total
function on strings, so it is defined and exception-free everywhere. -/
theorem C9_normalize_name_idempotent (s : String) :
    normalize_name (normalize_name s) = normalize_name s := by
  unfold normalize_name
  rw [show (String.mk (pyStrip (lowerList (s.data.map trChar)))).data
      = pyStrip (lowerList (s.data.map trChar)) from rfl]
  have hnorm : ∀ d ∈ pyStrip (lowerList (s.data.map trChar)), normalChar d :=
    fun d hd => normalChar_mem_normalizeCore s.data d (mem_of_mem_pyStrip hd)
  rw [map_trChar_eq_self hnorm, lowerList_eq_self hnorm, pyStrip_idem]

end App
